import Mathlib

/-!
# remoteconfig: a verification development

A shallow embedding of `remoteconfig.go`.  The package keeps one record,
`remoteConfig`, holding the source URL, the refresh interval and the bytes of
the last document fetched.  Everything the package asks of the outside world
(`http.Get`, `ioutil.ReadAll`, `json.Unmarshal`) is made explicit: the outcome
of one HTTP retrieval is a value of `GetResult`, and the JSON decoder is a
`Decoder` passed as an argument.  Pointer receivers become state passing: a
method that may assign to `rc` returns the record after the call.  That
includes `Unmarshal`: its target is any pointer the caller likes, and one that
reaches the handle lets the decoder write the handle's exported fields.
-/

namespace remoteconfig

/-! ## Data model -/

/-- A Go `[]byte`, as the sequence of its bytes. -/
abbrev Bytes := List UInt8

/-- A Go `error` value that is not nil.  `external` is an error handed to
the package by a library call (`http.Get`, `ioutil.ReadAll`,
`json.Unmarshal`); `errorf` is an error value the package builds itself with
`fmt.Errorf`.  Both carry the text their `Error()` method returns. -/
inductive GoError where
  | external (msg : String)
  | errorf (msg : String)
  deriving DecidableEq, Repr

/-- The method `Error()` of a Go error. -/
def GoError.Error : GoError → String
  | .external msg => msg
  | .errorf msg => msg

/-- What `ioutil.ReadAll(rsp.Body)` returns for a response body: all the
bytes and a nil error, or the bytes read so far and an error. -/
inductive BodyRead where
  | ok (data : Bytes)
  | fail (soFar : Bytes) (err : GoError)
  deriving DecidableEq, Repr

/-- The fields of `http.Response` the package looks at: the status code
(a Go `int`) and the body, given by what reading it to the end yields. -/
structure Response where
  StatusCode : Int
  Body : BodyRead
  deriving DecidableEq, Repr

/-- The result pair of `http.Get`: an error, or a response. -/
inductive GetResult where
  | err (e : GoError)
  | rsp (r : Response)
  deriving DecidableEq, Repr

/-- The verb `%d` of package `fmt` applied to a Go `int`: decimal digits,
with a leading minus sign for a negative number. -/
def formatInt : Int → String
  | .ofNat n => Nat.repr n
  | .negSucc n => "-" ++ Nat.repr (n + 1)

/-- Constant `time.Nanosecond`; a `time.Duration` counts nanoseconds. -/
def Nanosecond : Int := 1
/-- Constant `time.Microsecond`. -/
def Microsecond : Int := 1000 * Nanosecond
/-- Constant `time.Millisecond`. -/
def Millisecond : Int := 1000 * Microsecond
/-- Constant `time.Second`. -/
def Second : Int := 1000 * Millisecond
/-- Constant `time.Minute`. -/
def Minute : Int := 60 * Second

/-- The struct `remoteConfig`. -/
structure remoteConfig where
  URL : String
  Duration : Int
  File : Bytes
  deriving DecidableEq, Repr

/-! ## Operations -/

/-- Method `fetch`.  `get` is what `http.Get(rc.URL)` returned.  The result
is the record after the call and the returned error (`none` for nil).  The
body is read only when the status code is at most 299, and `rc.File` is
assigned only when that read returned no error.  The deferred
`rsp.Body.Close()` touches neither the record nor the result and is left
out. -/
def fetch (rc : remoteConfig) (get : GetResult) : remoteConfig × Option GoError :=
  match get with
  | .err e => (rc, some e)
  | .rsp rsp =>
    if rsp.StatusCode > 299 then
      (rc, some (.errorf
        ("remoteconfig: fetch failed with status code " ++ formatInt rsp.StatusCode)))
    else
      match rsp.Body with
      | .fail _ e => (rc, some e)
      | .ok file => ({ rc with File := file }, none)

/-- Function `New`.  `get` is the outcome of the retrieval made by the first
`fetch`.  The result is the Go pair: the handle (`none` for nil) and the
error.  The refresh goroutine started on success is `startRefresh` below. -/
def New (url : String) (get : GetResult) : Option remoteConfig × Option GoError :=
  let rc : remoteConfig := { URL := url, Duration := Minute, File := [] }
  match fetch rc get with
  | (_, some err) => (none, some err)
  | (rc, none) => (some rc, none)

/-- The target `v` of an `Unmarshal` call, by what the pointer reaches.
`apart v` is storage with content `v` that the handle is no part of.
`reaching w` is storage that includes the handle's own record, with `w` the
content of the rest of it: the handle passed as its own target (`w` is then
empty), the address of one of its fields, or a value holding the handle. -/
inductive Target (V W : Type) where
  | apart (v : V)
  | reaching (w : W)
  deriving DecidableEq, Repr

/-- Function `json.Unmarshal`, which is not part of the package, by the kind of
target it is given.  `apart` gets the bytes and the content of the target and
returns the content after decoding and the error.  `reaching` gets the bytes
and the content of the target, the handle's record included, and returns both
after decoding and the error. -/
structure Decoder (V W : Type) where
  apart : Bytes → V → V × Option GoError
  reaching : Bytes → W × remoteConfig → (W × remoteConfig) × Option GoError

/-- Method `Unmarshal`: `json.Unmarshal(rc.File, v)`.  The result is the record
and the target after the call, and the returned error.  The decoder writes
through `v`, so a target that reaches the handle may come back with another
record. -/
def Unmarshal {V W : Type} (json : Decoder V W) (rc : remoteConfig) :
    Target V W → (remoteConfig × Target V W) × Option GoError
  | .apart v => ((rc, .apart (json.apart rc.File v).1), (json.apart rc.File v).2)
  | .reaching w =>
    (((json.reaching rc.File (w, rc)).1.2, .reaching (json.reaching rc.File (w, rc)).1.1),
      (json.reaching rc.File (w, rc)).2)

/-- One turn of the loop in `startRefresh`: the `fetch` made when the ticker
fires, and the line handed to the logger. -/
def refreshTick (rc : remoteConfig) (get : GetResult) : remoteConfig × String :=
  match fetch rc get with
  | (rc, some err) => (rc, "error fetching remoteconfig: " ++ err.Error)
  | (rc, none) => (rc, "fetched remoteconfig")

/-- Method `startRefresh`, run over the ticks the ticker delivers, each given
by the outcome of the retrieval made on it.  The result is the record after
the last tick and the lines logged, in order. -/
def startRefresh (rc : remoteConfig) : List GetResult → remoteConfig × List String
  | [] => (rc, [])
  | get :: ticks =>
    let (rc1, line) := refreshTick rc get
    let (rc2, lines) := startRefresh rc1 ticks
    (rc2, line :: lines)

/-! ## Histories of a handle -/

/-- Something that happens to a handle after `New` returned it: the ticker
fires and the refresh loop fetches, or a caller calls `Unmarshal` with some
target. -/
inductive Event (V W : Type) where
  | refresh (get : GetResult)
  | unmarshal (v : Target V W)
  deriving DecidableEq, Repr

/-- What an event leaves behind for an observer: a log line, or the target
and error after an `Unmarshal` call. -/
inductive Observation (V W : Type) where
  | logged (line : String)
  | decoded (v : Target V W) (err : Option GoError)
  deriving DecidableEq, Repr

/-- The effect of one event on the handle. -/
def step {V W : Type} (json : Decoder V W) (rc : remoteConfig) :
    Event V W → remoteConfig × Observation V W
  | .refresh get => ((refreshTick rc get).1, .logged (refreshTick rc get).2)
  | .unmarshal v => ((Unmarshal json rc v).1.1, .decoded (Unmarshal json rc v).1.2
      (Unmarshal json rc v).2)

/-- The effect of a sequence of events, one after the other. -/
def run {V W : Type} (json : Decoder V W) (rc : remoteConfig) :
    List (Event V W) → remoteConfig × List (Observation V W)
  | [] => (rc, [])
  | e :: es =>
    ((run json (step json rc e).1 es).1,
      (step json rc e).2 :: (run json (step json rc e).1 es).2)

/-! ## The decoder on the handle itself

The handle is a pointer to a struct with the exported fields `URL` (a string),
`Duration` (an `int64`) and `File` (a byte slice), and has no method
`UnmarshalJSON`.  Given the handle as target, `json.Unmarshal` decodes a JSON
object member by member into these fields.  The definitions below describe
that on the simplest payloads: an object whose members are named URL, with
a string of printable ASCII without escapes, Duration, with an integer that
fits 64 bits, and File, with `null`.  On such a payload the decoder returns
nil, a string member sets `URL`, an integer member sets `Duration`, and `null`
sets the slice `File` to nil.  Every other payload is left to a parameter. -/

/-- JSON white space: space, tab, line feed, carriage return. -/
def isJSONSpace (b : UInt8) : Bool :=
  b.toNat = 32 || b.toNat = 9 || b.toNat = 10 || b.toNat = 13

/-- Drop leading white space. -/
def skipSpace : Bytes → Bytes
  | [] => []
  | b :: bs => if isJSONSpace b then skipSpace bs else b :: bs

/-- Read a string after its opening quote, up to and including the closing
quote: printable ASCII other than the quote and the backslash. -/
def readPlainString : Bytes → Option (List Char × Bytes)
  | [] => none
  | b :: bs =>
    if b.toNat = 34 then some ([], bs)
    else if 32 ≤ b.toNat ∧ b.toNat ≤ 126 ∧ b.toNat ≠ 92 then
      match readPlainString bs with
      | some (cs, rest) => some (Char.ofNat b.toNat :: cs, rest)
      | none => none
    else none

/-- Read decimal digits onto the number read so far. -/
def readDigits : Bytes → Nat → Nat × Bytes
  | [], acc => (acc, [])
  | b :: bs, acc =>
    if 48 ≤ b.toNat ∧ b.toNat ≤ 57 then readDigits bs (10 * acc + (b.toNat - 48))
    else (acc, b :: bs)

/-- Read the digits of a JSON integer: a single zero, or a digit from 1 to 9
followed by digits. -/
def readNat : Bytes → Option (Nat × Bytes)
  | [] => none
  | b :: bs =>
    if b.toNat = 48 then some (0, bs)
    else if 49 ≤ b.toNat ∧ b.toNat ≤ 57 then some (readDigits bs (b.toNat - 48))
    else none

/-- Read a JSON integer, with an optional minus sign. -/
def readInteger : Bytes → Option (Int × Bytes)
  | [] => none
  | b :: bs =>
    if b.toNat = 45 then
      match readNat bs with
      | some (n, rest) => some (-(n : Int), rest)
      | none => none
    else
      match readNat (b :: bs) with
      | some (n, rest) => some ((n : Int), rest)
      | none => none

/-- Store the value of the member named `key`, read from `data`, in the field
of that name. -/
def readValue (rc : remoteConfig) (key : String) (data : Bytes) :
    Option (remoteConfig × Bytes) :=
  if key = "URL" then
    match data with
    | b :: bs =>
      if b.toNat = 34 then
        match readPlainString bs with
        | some (cs, rest) => some ({ rc with URL := String.mk cs }, rest)
        | none => none
      else none
    | [] => none
  else if key = "Duration" then
    match readInteger data with
    | some (n, rest) =>
      if -9223372036854775808 ≤ n ∧ n ≤ 9223372036854775807 then
        some ({ rc with Duration := n }, rest)
      else none
    | none => none
  else if key = "File" then
    match data with
    | n :: u :: l1 :: l2 :: rest =>
      if n.toNat = 110 ∧ u.toNat = 117 ∧ l1.toNat = 108 ∧ l2.toNat = 108 then
        some ({ rc with File := [] }, rest)
      else none
    | _ => none
  else none

/-- Read one member: a name in quotes, a colon, a value. -/
def readMember (rc : remoteConfig) (data : Bytes) : Option (remoteConfig × Bytes) :=
  match data with
  | b :: bs =>
    if b.toNat = 34 then
      match readPlainString bs with
      | some (key, rest) =>
        match skipSpace rest with
        | c :: rest1 =>
          if c.toNat = 58 then readValue rc (String.mk key) (skipSpace rest1) else none
        | [] => none
      | none => none
    else none
  | [] => none

/-- Read members separated by commas up to the closing brace.  The first
argument bounds the number of members. -/
def readMembers : Nat → remoteConfig → Bytes → Option (remoteConfig × Bytes)
  | 0, _, _ => none
  | fuel + 1, rc, data =>
    match readMember rc (skipSpace data) with
    | some (rc1, rest) =>
      match skipSpace rest with
      | b :: rest1 =>
        if b.toNat = 44 then readMembers fuel rc1 rest1
        else if b.toNat = 125 then some (rc1, rest1)
        else none
      | [] => none
    | none => none

/-- The record after decoding `data` into the handle, when `data` is an
object of the simple kind described above; `none` for any other payload. -/
def decodeHandleObject (data : Bytes) (rc : remoteConfig) : Option remoteConfig :=
  match skipSpace data with
  | b :: rest =>
    if b.toNat = 123 then
      match skipSpace rest with
      | c :: rest1 =>
        if c.toNat = 125 then
          if skipSpace rest1 = [] then some rc else none
        else
          match readMembers data.length rc (c :: rest1) with
          | some (rc1, rest2) => if skipSpace rest2 = [] then some rc1 else none
          | none => none
      | [] => none
    else none
  | [] => none

/-- Function `json.Unmarshal` with the handle itself as target: a payload of
the simple kind is decoded into the fields and the error is nil; what happens
on any other payload is given by `other`. -/
def jsonUnmarshalHandle
    (other : Bytes → Unit × remoteConfig → (Unit × remoteConfig) × Option GoError)
    (data : Bytes) (target : Unit × remoteConfig) :
    (Unit × remoteConfig) × Option GoError :=
  match decodeHandleObject data target.2 with
  | some rc => (((), rc), none)
  | none => other data target

/-! ## Notions taken from the specification -/

/-- Reading the body to the end fails. -/
def BodyRead.failed : BodyRead → Bool
  | .ok _ => false
  | .fail _ _ => true

/-- A retrieval is a failure when the transport fails, the status code is 300
or more, or reading the body fails. -/
def isFailure : GetResult → Prop
  | .err _ => True
  | .rsp r => r.StatusCode ≥ 300 ∨ r.Body.failed = true

instance : DecidablePred isFailure := fun get =>
  match get with
  | .err _ => isTrue trivial
  | .rsp r => inferInstanceAs (Decidable (r.StatusCode ≥ 300 ∨ r.Body.failed = true))

/-- A retrieval is a success with body `B` when the transport delivers a
response whose status code is below 300 and whose body reads in full as `B`. -/
def isSuccessWith : GetResult → Bytes → Prop
  | .err _, _ => False
  | .rsp r, B => r.StatusCode < 300 ∧ r.Body = .ok B

instance (get : GetResult) (B : Bytes) : Decidable (isSuccessWith get B) :=
  match get with
  | .err _ => isFalse (fun h => h)
  | .rsp r => inferInstanceAs (Decidable (r.StatusCode < 300 ∧ r.Body = .ok B))

/-- The body of a successful retrieval, `none` for a failed one. -/
def successBody : GetResult → Option Bytes
  | .err _ => none
  | .rsp r =>
    match r.Body with
    | .ok B => if r.StatusCode < 300 then some B else none
    | .fail _ _ => none

/-- The body of the most recent successful fetch in a history, where `init`
is the body of the fetch made by `New`.  An `Unmarshal` call is not a fetch. -/
def lastSuccessfulBody {V W : Type} (init : Bytes) : List (Event V W) → Bytes
  | [] => init
  | .refresh get :: es =>
    match successBody get with
    | some B => lastSuccessfulBody B es
    | none => lastSuccessfulBody init es
  | .unmarshal _ :: es => lastSuccessfulBody init es

/-- An event is a failed refresh. -/
def Event.isFailedRefresh {V W : Type} : Event V W → Prop
  | .refresh get => isFailure get
  | .unmarshal _ => False

/-- An event is an `Unmarshal` call whose target reaches the handle. -/
def Event.reachesHandle {V W : Type} : Event V W → Bool
  | .refresh _ => false
  | .unmarshal (.apart _) => false
  | .unmarshal (.reaching _) => true

/-- What `json.Unmarshal` does on the payloads `decodeHandleObject` leaves
out, for use in examples: an error, and the target as it was. -/
def notDecoded : Bytes → Unit × remoteConfig → (Unit × remoteConfig) × Option GoError :=
  fun _ target => (target, some (.external "json: payload not decoded"))

/-- A decoder for examples: a target apart from the handle has no content and
accepts every payload. -/
def acceptAll : Decoder Unit Unit where
  apart := fun _ v => (v, none)
  reaching := jsonUnmarshalHandle notDecoded

/-- A decoder for examples: a target apart from the handle has no content and
rejects every payload. -/
def rejectAll : Decoder Unit Unit where
  apart := fun _ v => (v, some (.external "unexpected end of JSON input"))
  reaching := jsonUnmarshalHandle notDecoded

/-! ## Lemmas on the embedding -/

theorem successBody_eq_some_iff (get : GetResult) (B : Bytes) :
    successBody get = some B ↔ isSuccessWith get B := by
  cases get with
  | err e => simp [successBody, isSuccessWith]
  | rsp r =>
    obtain ⟨c, body⟩ := r
    cases body with
    | ok data =>
      by_cases hc : c < 300 <;> simp [successBody, isSuccessWith, hc]
    | fail soFar e => simp [successBody, isSuccessWith]

theorem successBody_eq_none_iff (get : GetResult) :
    successBody get = none ↔ isFailure get := by
  cases get with
  | err e => simp [successBody, isFailure]
  | rsp r =>
    obtain ⟨c, body⟩ := r
    cases body with
    | ok data =>
      by_cases hc : c < 300
      · have : ¬ c ≥ 300 := by omega
        simp [successBody, isFailure, BodyRead.failed, hc, this]
      · have : c ≥ 300 := by omega
        simp [successBody, isFailure, hc, this]
    | fail soFar e => simp [successBody, isFailure, BodyRead.failed]

theorem fetch_snd_eq_none_iff (rc : remoteConfig) (get : GetResult) :
    (fetch rc get).2 = none ↔ ¬ isFailure get := by
  cases get with
  | err e => simp [fetch, isFailure]
  | rsp r =>
    obtain ⟨c, body⟩ := r
    by_cases hc : c > 299
    · have : c ≥ 300 := by omega
      simp [fetch, isFailure, hc, this]
    · have : ¬ c ≥ 300 := by omega
      cases body <;> simp [fetch, isFailure, BodyRead.failed, hc, this]

theorem fetch_snd_eq_some_of_isFailure (rc : remoteConfig) (get : GetResult)
    (h : isFailure get) : ∃ e, (fetch rc get).2 = some e := by
  cases hs : (fetch rc get).2 with
  | none => exact absurd h ((fetch_snd_eq_none_iff rc get).1 hs)
  | some e => exact ⟨e, rfl⟩

theorem fetch_fst (rc : remoteConfig) (get : GetResult) :
    (fetch rc get).1 = { rc with File := (successBody get).getD rc.File } := by
  cases get with
  | err e => simp [fetch, successBody]
  | rsp r =>
    obtain ⟨c, body⟩ := r
    by_cases hc : c > 299
    · have : ¬ c < 300 := by omega
      cases body <;> simp [fetch, successBody, hc, this]
    · have : c < 300 := by omega
      cases body <;> simp [fetch, successBody, hc, this]

theorem refreshTick_fst (rc : remoteConfig) (get : GetResult) :
    (refreshTick rc get).1 = (fetch rc get).1 := by
  unfold refreshTick
  split <;> simp_all

theorem step_fst {V W : Type} (json : Decoder V W)
    (rc : remoteConfig) (e : Event V W) (he : e.reachesHandle = false) :
    (step json rc e).1 =
      { rc with File := lastSuccessfulBody rc.File [e] } := by
  cases e with
  | refresh get =>
    simp only [step, refreshTick_fst, fetch_fst, lastSuccessfulBody]
    cases successBody get <;> rfl
  | unmarshal v =>
    cases v with
    | apart v => rfl
    | reaching w => exact absurd he (by simp [Event.reachesHandle])

theorem run_fst {V W : Type} (json : Decoder V W)
    (rc : remoteConfig) (es : List (Event V W))
    (hes : ∀ e ∈ es, e.reachesHandle = false) :
    (run json rc es).1 = { rc with File := lastSuccessfulBody rc.File es } := by
  induction es generalizing rc with
  | nil => rfl
  | cons e es ih =>
    have he : e.reachesHandle = false := hes e (List.mem_cons_self _ _)
    have htl : ∀ x ∈ es, x.reachesHandle = false :=
      fun x hx => hes x (List.mem_cons_of_mem _ hx)
    simp only [run, ih _ htl, step_fst json rc e he]
    cases e with
    | refresh get =>
      simp only [lastSuccessfulBody]
      cases successBody get <;> rfl
    | unmarshal v => rfl

theorem lastSuccessfulBody_append {V W : Type} (init : Bytes) (es fs : List (Event V W)) :
    lastSuccessfulBody init (es ++ fs) = lastSuccessfulBody (lastSuccessfulBody init es) fs := by
  induction es generalizing init with
  | nil => rfl
  | cons e es ih =>
    cases e with
    | refresh get =>
      simp only [List.cons_append, lastSuccessfulBody]
      cases successBody get <;> simp [ih]
    | unmarshal v =>
      show lastSuccessfulBody init (es ++ fs) = _
      exact ih init

theorem lastSuccessfulBody_failures {V W : Type} (init : Bytes) (fs : List (Event V W))
    (h : ∀ e ∈ fs, e.isFailedRefresh) : lastSuccessfulBody init fs = init := by
  induction fs with
  | nil => rfl
  | cons e fs ih =>
    have he : e.isFailedRefresh := h e (List.mem_cons_self _ _)
    have hfs : ∀ x ∈ fs, x.isFailedRefresh := fun x hx => h x (List.mem_cons_of_mem _ hx)
    cases e with
    | refresh get =>
      have : successBody get = none := (successBody_eq_none_iff get).2 he
      simp [lastSuccessfulBody, this, ih hfs]
    | unmarshal v => exact absurd he (by simp [Event.isFailedRefresh])

theorem reachesHandle_of_isFailedRefresh {V W : Type} (e : Event V W)
    (h : e.isFailedRefresh) : e.reachesHandle = false := by
  cases e with
  | refresh get => rfl
  | unmarshal v => exact absurd h (by simp [Event.isFailedRefresh])

theorem reachesHandle_append {V W : Type} (es fs : List (Event V W))
    (hes : ∀ e ∈ es, e.reachesHandle = false)
    (hfs : ∀ e ∈ fs, e.reachesHandle = false) :
    ∀ e ∈ es ++ fs, e.reachesHandle = false := by
  intro e he
  rcases List.mem_append.1 he with h | h
  · exact hes e h
  · exact hfs e h

theorem New_eq_some (url : String) (get : GetResult) (rc : remoteConfig)
    (h : New url get = (some rc, none)) :
    ∃ B, successBody get = some B ∧ rc = { URL := url, Duration := Minute, File := B } := by
  cases hs : successBody get with
  | none =>
    have hf : isFailure get := (successBody_eq_none_iff get).1 hs
    have hne : (fetch { URL := url, Duration := Minute, File := [] } get).2 ≠ none :=
      fun hn => ((fetch_snd_eq_none_iff _ get).1 hn) hf
    unfold New at h
    simp only at h
    split at h
    · simp at h
    · rename_i heq
      rw [heq] at hne
      exact absurd rfl hne
  | some B =>
    refine ⟨B, rfl, ?_⟩
    have hfst := fetch_fst { URL := url, Duration := Minute, File := [] } get
    unfold New at h
    simp only at h
    split at h
    · simp at h
    · rename_i heq
      rw [heq, hs] at hfst
      simp only [Prod.mk.injEq, Option.some.injEq, and_true] at h
      rw [← h]
      simpa using hfst

theorem startRefresh_fst {V W : Type} (json : Decoder V W)
    (rc : remoteConfig) (ticks : List GetResult) :
    (startRefresh rc ticks).1 = (run json rc (ticks.map Event.refresh)).1 := by
  induction ticks generalizing rc with
  | nil => rfl
  | cons get ticks ih =>
    simp only [startRefresh, List.map_cons, run, step, ih]

/-! ## The claims -/

/-- C1: when the retrieval is a failure (transport error, status code 300 or
more, or body read error), `fetch` returns an error and the record after the
call is the record before it: payload, URL and refresh interval are
unchanged. -/
theorem fetch_failure_keeps_state (rc : remoteConfig) (get : GetResult)
    (h : isFailure get) :
    (∃ e, (fetch rc get).2 = some e) ∧ (fetch rc get).1 = rc ∧
      (fetch rc get).1.File = rc.File ∧ (fetch rc get).1.URL = rc.URL ∧
      (fetch rc get).1.Duration = rc.Duration := by
  have hnone : successBody get = none := (successBody_eq_none_iff get).2 h
  have hst : (fetch rc get).1 = rc := by rw [fetch_fst, hnone]; rfl
  exact ⟨fetch_snd_eq_some_of_isFailure rc get h, hst, by rw [hst], by rw [hst], by rw [hst]⟩

theorem fetch_failure_keeps_state_witness :
    isFailure (.err (.external "dial tcp: connection refused")) ∧
    ((∃ e, (fetch ⟨"https://example.com/c.json", Minute, [123, 125]⟩
        (.err (.external "dial tcp: connection refused"))).2 = some e) ∧
      (fetch ⟨"https://example.com/c.json", Minute, [123, 125]⟩
        (.err (.external "dial tcp: connection refused"))).1 =
          ⟨"https://example.com/c.json", Minute, [123, 125]⟩ ∧
      (fetch ⟨"https://example.com/c.json", Minute, [123, 125]⟩
        (.err (.external "dial tcp: connection refused"))).1.File = [123, 125] ∧
      (fetch ⟨"https://example.com/c.json", Minute, [123, 125]⟩
        (.err (.external "dial tcp: connection refused"))).1.URL =
          "https://example.com/c.json" ∧
      (fetch ⟨"https://example.com/c.json", Minute, [123, 125]⟩
        (.err (.external "dial tcp: connection refused"))).1.Duration = Minute) :=
  ⟨trivial, fetch_failure_keeps_state ⟨"https://example.com/c.json", Minute, [123, 125]⟩
    (.err (.external "dial tcp: connection refused")) trivial⟩

/-- C3: `fetch` returns an error exactly when the transport fails, or the
status code is 300 or more, or reading the body fails; and it returns nil
exactly when the transport delivers a response with a status code below 300
whose body is read in full. -/
theorem fetch_error_iff (rc : remoteConfig) (get : GetResult) :
    ((∃ e, (fetch rc get).2 = some e) ↔
      ((∃ e, get = .err e) ∨
        (∃ r, get = .rsp r ∧ r.StatusCode ≥ 300) ∨
        (∃ r soFar e, get = .rsp r ∧ r.Body = .fail soFar e))) ∧
    ((fetch rc get).2 = none ↔
      ∃ r B, get = .rsp r ∧ r.StatusCode < 300 ∧ r.Body = .ok B) := by
  cases get with
  | err e => simp [fetch]
  | rsp r =>
    obtain ⟨c, body⟩ := r
    by_cases hc : c > 299
    · have h1 : c ≥ 300 := by omega
      have h2 : ¬ c < 300 := by omega
      simp [fetch, hc, h1, h2]
    · have h1 : ¬ c ≥ 300 := by omega
      have h2 : c < 300 := by omega
      cases body <;> simp [fetch, hc, h1, h2]

/-- C4: when the retrieval is a success with body `B`, `fetch` returns nil
and the payload after the call is exactly `B`, whatever payload was stored
before: the record after the call is the old one with `File` replaced by `B`,
and the new payload does not depend on the old one. -/
theorem fetch_success_stores_body (rc : remoteConfig) (get : GetResult) (B : Bytes)
    (h : isSuccessWith get B) :
    (fetch rc get).2 = none ∧ (fetch rc get).1.File = B ∧
      (fetch rc get).1 = { rc with File := B } ∧
      ∀ old : Bytes, (fetch { rc with File := old } get).1.File = B := by
  have hs : successBody get = some B := (successBody_eq_some_iff get B).2 h
  have hnf : ¬ isFailure get := by
    intro hf
    rw [(successBody_eq_none_iff get).2 hf] at hs
    exact absurd hs (by simp)
  refine ⟨(fetch_snd_eq_none_iff rc get).2 hnf, ?_, ?_, ?_⟩
  · rw [fetch_fst, hs]; rfl
  · rw [fetch_fst, hs]; rfl
  · intro old
    rw [fetch_fst, hs]; rfl

theorem fetch_success_stores_body_witness :
    isSuccessWith (.rsp ⟨200, .ok [123, 34, 97, 34, 58, 50, 125]⟩)
      [123, 34, 97, 34, 58, 50, 125] ∧
    ((fetch ⟨"https://example.com/c.json", Minute, [123, 34, 97, 34, 58, 49, 125]⟩
        (.rsp ⟨200, .ok [123, 34, 97, 34, 58, 50, 125]⟩)).2 = none ∧
      (fetch ⟨"https://example.com/c.json", Minute, [123, 34, 97, 34, 58, 49, 125]⟩
        (.rsp ⟨200, .ok [123, 34, 97, 34, 58, 50, 125]⟩)).1.File =
          [123, 34, 97, 34, 58, 50, 125] ∧
      (fetch ⟨"https://example.com/c.json", Minute, [123, 34, 97, 34, 58, 49, 125]⟩
        (.rsp ⟨200, .ok [123, 34, 97, 34, 58, 50, 125]⟩)).1 =
          ⟨"https://example.com/c.json", Minute, [123, 34, 97, 34, 58, 50, 125]⟩ ∧
      ∀ old : Bytes,
        (fetch ⟨"https://example.com/c.json", Minute, old⟩
          (.rsp ⟨200, .ok [123, 34, 97, 34, 58, 50, 125]⟩)).1.File =
            [123, 34, 97, 34, 58, 50, 125]) :=
  ⟨by decide,
    fetch_success_stores_body
      ⟨"https://example.com/c.json", Minute, [123, 34, 97, 34, 58, 49, 125]⟩
      (.rsp ⟨200, .ok [123, 34, 97, 34, 58, 50, 125]⟩) [123, 34, 97, 34, 58, 50, 125]
      (by decide)⟩

/-- C5: `New` returns an error exactly when the first `fetch` does (that is,
exactly when the retrieval is a failure); the error of `New` is the error of
that `fetch`, and with it the handle is nil.  A response with status 404 is
such a case, whatever its body. -/
theorem New_error_iff (url : String) (get : GetResult) :
    ((∃ e, (New url get).2 = some e) ↔
      ∃ e, (fetch { URL := url, Duration := Minute, File := [] } get).2 = some e) ∧
    ((∃ e, (New url get).2 = some e) ↔ isFailure get) ∧
    (New url get).2 = (fetch { URL := url, Duration := Minute, File := [] } get).2 ∧
    (∀ e, (New url get).2 = some e → (New url get).1 = none) ∧
    (∀ body, New url (.rsp ⟨404, body⟩) =
      (none, some (.errorf "remoteconfig: fetch failed with status code 404"))) := by
  have heq : (New url get).2 =
      (fetch { URL := url, Duration := Minute, File := [] } get).2 := by
    unfold New
    simp only
    split <;> simp_all
  have hnil : ∀ e, (New url get).2 = some e → (New url get).1 = none := by
    intro e
    unfold New
    simp only
    split <;> simp
  have hiff : (∃ e, (New url get).2 = some e) ↔ isFailure get := by
    rw [heq]
    constructor
    · rintro ⟨e, he⟩
      by_contra hnf
      rw [(fetch_snd_eq_none_iff _ get).2 hnf] at he
      exact absurd he (by simp)
    · intro hf
      exact fetch_snd_eq_some_of_isFailure _ get hf
  refine ⟨by rw [heq], hiff, heq, hnil, ?_⟩
  intro body
  cases body <;> rfl

/-- C6: for a response whose status code `c` is 300 or more, `fetch` leaves
the record alone and returns the error built by `fmt.Errorf`, whose text is
"remoteconfig: fetch failed with status code " followed by `c` in decimal;
this holds for every body, readable or not, and the error a failing body
reader would give is not the one returned. -/
theorem fetch_bad_status (rc : remoteConfig) (c : Int) (body : BodyRead) (h : c ≥ 300) :
    fetch rc (.rsp ⟨c, body⟩) =
      (rc, some (.errorf
        ("remoteconfig: fetch failed with status code " ++ Nat.repr c.toNat))) ∧
    (∀ e, (fetch rc (.rsp ⟨c, body⟩)).2 = some e →
      e.Error = "remoteconfig: fetch failed with status code " ++ Nat.repr c.toNat) ∧
    (∀ soFar msg, (fetch rc (.rsp ⟨c, .fail soFar (.external msg)⟩)).2 ≠
      some (.external msg)) := by
  have hc : c > 299 := by omega
  have hfmt : formatInt c = Nat.repr c.toNat := by
    cases c with
    | ofNat n => rfl
    | negSucc n => exact absurd h (by have := Int.negSucc_lt_zero n; omega)
  have hfetch : ∀ b, fetch rc (.rsp ⟨c, b⟩) =
      (rc, some (.errorf
        ("remoteconfig: fetch failed with status code " ++ Nat.repr c.toNat))) := by
    intro b
    simp [fetch, hc, hfmt]
  refine ⟨hfetch body, ?_, ?_⟩
  · intro e he
    rw [hfetch body] at he
    simp only [Option.some.injEq] at he
    rw [← he]
    rfl
  · intro soFar msg
    rw [hfetch]
    simp

theorem fetch_bad_status_witness :
    (503 : Int) ≥ 300 ∧
    (fetch ⟨"https://example.com/c.json", Minute, [123, 125]⟩
        (.rsp ⟨503, .fail [] (.external "unexpected EOF")⟩) =
      (⟨"https://example.com/c.json", Minute, [123, 125]⟩, some (.errorf
        ("remoteconfig: fetch failed with status code " ++ Nat.repr (503 : Int).toNat))) ∧
    (∀ e, (fetch ⟨"https://example.com/c.json", Minute, [123, 125]⟩
        (.rsp ⟨503, .fail [] (.external "unexpected EOF")⟩)).2 = some e →
      e.Error =
        "remoteconfig: fetch failed with status code " ++ Nat.repr (503 : Int).toNat) ∧
    (∀ soFar msg, (fetch ⟨"https://example.com/c.json", Minute, [123, 125]⟩
        (.rsp ⟨503, .fail soFar (.external msg)⟩)).2 ≠ some (.external msg))) :=
  ⟨by decide,
    fetch_bad_status ⟨"https://example.com/c.json", Minute, [123, 125]⟩ 503
      (.fail [] (.external "unexpected EOF")) (by decide)⟩

/-- C2, as stated, fails.  `New` succeeds on a response with status 200 and
a body of 13 bytes, the JSON object whose one member is File with the value
null.  A caller then passes the handle to its own `Unmarshal`: the decoder
stores null in the field `File` and returns nil, and the payload is empty
although the most recent successful fetch delivered those 13 bytes. -/
theorem payload_changed_by_Unmarshal_into_handle :
    New "https://example.com/c.json"
        (.rsp ⟨200, .ok [123, 34, 70, 105, 108, 101, 34, 58, 110, 117, 108, 108, 125]⟩) =
      (some ⟨"https://example.com/c.json", Minute,
        [123, 34, 70, 105, 108, 101, 34, 58, 110, 117, 108, 108, 125]⟩, none) ∧
    (∀ other, run (⟨fun _ v => (v, none), jsonUnmarshalHandle other⟩ : Decoder Unit Unit)
        ⟨"https://example.com/c.json", Minute,
          [123, 34, 70, 105, 108, 101, 34, 58, 110, 117, 108, 108, 125]⟩
        [.unmarshal (.reaching ())] =
      (⟨"https://example.com/c.json", Minute, []⟩, [.decoded (.reaching ()) none])) ∧
    lastSuccessfulBody [123, 34, 70, 105, 108, 101, 34, 58, 110, 117, 108, 108, 125]
        ([.unmarshal (.reaching ())] : List (Event Unit Unit)) =
      [123, 34, 70, 105, 108, 101, 34, 58, 110, 117, 108, 108, 125] ∧
    ¬ (∀ (url : String) (get : GetResult) (rc : remoteConfig) (B0 : Bytes)
        (es : List (Event Unit Unit)),
        New url get = (some rc, none) → isSuccessWith get B0 →
        (run acceptAll rc es).1.File = lastSuccessfulBody B0 es) := by
  refine ⟨by decide, fun other => rfl, by decide, ?_⟩
  intro hall
  have h := hall "https://example.com/c.json"
    (.rsp ⟨200, .ok [123, 34, 70, 105, 108, 101, 34, 58, 110, 117, 108, 108, 125]⟩)
    ⟨"https://example.com/c.json", Minute,
      [123, 34, 70, 105, 108, 101, 34, 58, 110, 117, 108, 108, 125]⟩
    [123, 34, 70, 105, 108, 101, 34, 58, 110, 117, 108, 108, 125]
    [.unmarshal (.reaching ())] (by decide) (by decide)
  exact absurd h (by decide)

/-- C2, amended: for a handle `rc` returned by a successful `New` and every
sequence `es` of later events (refreshes of either outcome and `Unmarshal`
calls of either outcome) in which no `Unmarshal` target reaches the handle,
the payload is the body of the most recent successful fetch, the one made by
`New` counting as the first.  In particular failed refreshes `fs` after `es`
leave the payload as it was, and a successful refresh with body `B` after them
makes it `B`. -/
theorem payload_is_last_successful_body {V W : Type} (json : Decoder V W)
    (url : String) (get : GetResult) (rc : remoteConfig)
    (h : New url get = (some rc, none)) (es : List (Event V W))
    (hes : ∀ e ∈ es, e.reachesHandle = false) :
    ∃ B0, isSuccessWith get B0 ∧
      (run json rc es).1.File = lastSuccessfulBody B0 es ∧
      (∀ fs : List (Event V W), (∀ e ∈ fs, e.isFailedRefresh) →
        (run json rc (es ++ fs)).1.File = (run json rc es).1.File) ∧
      (∀ (fs : List (Event V W)) (g : GetResult) (B : Bytes),
        (∀ e ∈ fs, e.isFailedRefresh) → isSuccessWith g B →
        (run json rc (es ++ fs ++ [.refresh g])).1.File = B) := by
  obtain ⟨B0, hB0, hrc⟩ := New_eq_some url get rc h
  have hfile : rc.File = B0 := by rw [hrc]
  have hfail : ∀ fs : List (Event V W), (∀ e ∈ fs, e.isFailedRefresh) →
      ∀ e ∈ es ++ fs, e.reachesHandle = false := fun fs hfs =>
    reachesHandle_append es fs hes (fun e he => reachesHandle_of_isFailedRefresh e (hfs e he))
  refine ⟨B0, (successBody_eq_some_iff get B0).1 hB0, ?_, ?_, ?_⟩
  · rw [run_fst json rc es hes, hfile]
  · intro fs hfs
    rw [run_fst json rc _ (hfail fs hfs), run_fst json rc es hes, lastSuccessfulBody_append]
    exact lastSuccessfulBody_failures _ fs hfs
  · intro fs g B hfs hg
    have hs : successBody g = some B := (successBody_eq_some_iff g B).2 hg
    have hall : ∀ e ∈ es ++ fs ++ [.refresh g], e.reachesHandle = false :=
      reachesHandle_append _ _ (hfail fs hfs) (by simp [Event.reachesHandle])
    rw [run_fst json rc _ hall, lastSuccessfulBody_append]
    simp [lastSuccessfulBody, hs]

theorem payload_is_last_successful_body_witness :
    New "https://example.com/c.json" (.rsp ⟨200, .ok [123, 34, 97, 34, 58, 49, 125]⟩) =
      (some ⟨"https://example.com/c.json", Minute, [123, 34, 97, 34, 58, 49, 125]⟩, none) ∧
    (∀ e ∈ ([.refresh (.err (.external "dial tcp: i/o timeout")), .unmarshal (.apart ()),
          .refresh (.rsp ⟨200, .ok [123, 34, 97, 34, 58, 50, 125]⟩),
          .refresh (.rsp ⟨500, .ok [60, 62]⟩)] : List (Event Unit Unit)),
        e.reachesHandle = false) ∧
    ∃ B0, isSuccessWith (.rsp ⟨200, .ok [123, 34, 97, 34, 58, 49, 125]⟩) B0 ∧
      (run rejectAll ⟨"https://example.com/c.json", Minute, [123, 34, 97, 34, 58, 49, 125]⟩
        [.refresh (.err (.external "dial tcp: i/o timeout")), .unmarshal (.apart ()),
          .refresh (.rsp ⟨200, .ok [123, 34, 97, 34, 58, 50, 125]⟩),
          .refresh (.rsp ⟨500, .ok [60, 62]⟩)]).1.File =
        lastSuccessfulBody B0
          ([.refresh (.err (.external "dial tcp: i/o timeout")), .unmarshal (.apart ()),
            .refresh (.rsp ⟨200, .ok [123, 34, 97, 34, 58, 50, 125]⟩),
            .refresh (.rsp ⟨500, .ok [60, 62]⟩)] : List (Event Unit Unit)) ∧
      (∀ fs : List (Event Unit Unit), (∀ e ∈ fs, e.isFailedRefresh) →
        (run rejectAll
          ⟨"https://example.com/c.json", Minute, [123, 34, 97, 34, 58, 49, 125]⟩
          ([.refresh (.err (.external "dial tcp: i/o timeout")), .unmarshal (.apart ()),
            .refresh (.rsp ⟨200, .ok [123, 34, 97, 34, 58, 50, 125]⟩),
            .refresh (.rsp ⟨500, .ok [60, 62]⟩)] ++ fs)).1.File =
        (run rejectAll
          ⟨"https://example.com/c.json", Minute, [123, 34, 97, 34, 58, 49, 125]⟩
          [.refresh (.err (.external "dial tcp: i/o timeout")), .unmarshal (.apart ()),
            .refresh (.rsp ⟨200, .ok [123, 34, 97, 34, 58, 50, 125]⟩),
            .refresh (.rsp ⟨500, .ok [60, 62]⟩)]).1.File) ∧
      (∀ (fs : List (Event Unit Unit)) (g : GetResult) (B : Bytes),
        (∀ e ∈ fs, e.isFailedRefresh) → isSuccessWith g B →
        (run rejectAll
          ⟨"https://example.com/c.json", Minute, [123, 34, 97, 34, 58, 49, 125]⟩
          ([.refresh (.err (.external "dial tcp: i/o timeout")), .unmarshal (.apart ()),
            .refresh (.rsp ⟨200, .ok [123, 34, 97, 34, 58, 50, 125]⟩),
            .refresh (.rsp ⟨500, .ok [60, 62]⟩)] ++ fs ++ [.refresh g])).1.File = B) :=
  ⟨by decide, by decide,
    payload_is_last_successful_body rejectAll "https://example.com/c.json"
      (.rsp ⟨200, .ok [123, 34, 97, 34, 58, 49, 125]⟩)
      ⟨"https://example.com/c.json", Minute, [123, 34, 97, 34, 58, 49, 125]⟩ (by decide)
      [.refresh (.err (.external "dial tcp: i/o timeout")), .unmarshal (.apart ()),
        .refresh (.rsp ⟨200, .ok [123, 34, 97, 34, 58, 50, 125]⟩),
        .refresh (.rsp ⟨500, .ok [60, 62]⟩)] (by decide)⟩

/-- C7, as stated, fails: `New` succeeds on a response with status 200 and an
empty body; the payload of the handle it returns has length zero and still has
after a failed refresh, so the payload is not always non-empty. -/
theorem payload_empty_after_New :
    New "https://example.com/c.json" (.rsp ⟨200, .ok []⟩) =
      (some ⟨"https://example.com/c.json", Minute, []⟩, none) ∧
    (startRefresh ⟨"https://example.com/c.json", Minute, []⟩ []).1.File.length = 0 ∧
    (startRefresh ⟨"https://example.com/c.json", Minute, []⟩
      [.err (.external "dial tcp: i/o timeout")]).1.File.length = 0 ∧
    ¬ (∀ (url : String) (get : GetResult) (rc : remoteConfig) (ticks : List GetResult),
        New url get = (some rc, none) → 0 < (startRefresh rc ticks).1.File.length) := by
  refine ⟨by decide, by decide, by decide, ?_⟩
  intro hall
  have h := hall "https://example.com/c.json" (.rsp ⟨200, .ok []⟩)
    ⟨"https://example.com/c.json", Minute, []⟩ [] (by decide)
  exact absurd h (by decide)

/-- C7, amended: for a handle returned by a successful `New` and every later
sequence of events in which no `Unmarshal` target reaches the handle (so every
sequence of successful and failed refreshes), the payload is non-empty exactly
when the body of the most recent successful fetch (the one made by `New`
counting) is non-empty; so it is non-empty whenever the first body and the
body of every successful refresh are. -/
theorem payload_nonempty_iff {V W : Type} (json : Decoder V W)
    (url : String) (get : GetResult) (rc : remoteConfig)
    (h : New url get = (some rc, none)) (es : List (Event V W))
    (hes : ∀ e ∈ es, e.reachesHandle = false) :
    ∃ B0, isSuccessWith get B0 ∧
      (0 < (run json rc es).1.File.length ↔
        0 < (lastSuccessfulBody B0 es).length) ∧
      (0 < B0.length →
        (∀ g B, Event.refresh g ∈ es → isSuccessWith g B → 0 < B.length) →
        0 < (run json rc es).1.File.length) ∧
      (∀ ticks : List GetResult,
        (0 < (startRefresh rc ticks).1.File.length ↔
          0 < (lastSuccessfulBody B0
            (ticks.map Event.refresh : List (Event V W))).length)) := by
  obtain ⟨B0, hB0, hrc⟩ := New_eq_some url get rc h
  have hfile : rc.File = B0 := by rw [hrc]
  have hrun : (run json rc es).1.File = lastSuccessfulBody B0 es := by
    rw [run_fst json rc es hes, hfile]
  have hticks : ∀ ticks : List GetResult,
      (startRefresh rc ticks).1.File =
        lastSuccessfulBody B0 (ticks.map Event.refresh : List (Event V W)) := by
    intro ticks
    rw [startRefresh_fst json rc ticks, run_fst json rc _ (by simp [Event.reachesHandle]),
      hfile]
  refine ⟨B0, (successBody_eq_some_iff get B0).1 hB0, by rw [hrun], ?_,
    fun ticks => by rw [hticks ticks]⟩
  intro h0 hall
  rw [hrun]
  clear hrun hfile hrc hB0 h hes hticks
  induction es generalizing B0 with
  | nil => exact h0
  | cons e es ih =>
    have htl : ∀ g B, Event.refresh g ∈ es → isSuccessWith g B → 0 < B.length :=
      fun g B hg => hall g B (List.mem_cons_of_mem _ hg)
    cases e with
    | refresh g =>
      simp only [lastSuccessfulBody]
      cases hs : successBody g with
      | none => exact ih B0 h0 htl
      | some B =>
        exact ih B (hall g B (List.mem_cons_self _ _)
          ((successBody_eq_some_iff g B).1 hs)) htl
    | unmarshal v => exact ih B0 h0 htl

theorem payload_nonempty_iff_witness :
    New "https://example.com/c.json" (.rsp ⟨200, .ok [123, 125]⟩) =
      (some ⟨"https://example.com/c.json", Minute, [123, 125]⟩, none) ∧
    (∀ e ∈ ([.refresh (.rsp ⟨404, .ok [60, 62]⟩),
          .refresh (.rsp ⟨200, .ok [91, 93]⟩)] : List (Event Unit Unit)),
        e.reachesHandle = false) ∧
    ∃ B0, isSuccessWith (.rsp ⟨200, .ok [123, 125]⟩) B0 ∧
      (0 < (run acceptAll ⟨"https://example.com/c.json", Minute, [123, 125]⟩
          [.refresh (.rsp ⟨404, .ok [60, 62]⟩),
            .refresh (.rsp ⟨200, .ok [91, 93]⟩)]).1.File.length ↔
        0 < (lastSuccessfulBody B0
          ([.refresh (.rsp ⟨404, .ok [60, 62]⟩),
            .refresh (.rsp ⟨200, .ok [91, 93]⟩)] : List (Event Unit Unit))).length) ∧
      (0 < B0.length →
        (∀ g B, Event.refresh g ∈
            ([.refresh (.rsp ⟨404, .ok [60, 62]⟩),
              .refresh (.rsp ⟨200, .ok [91, 93]⟩)] : List (Event Unit Unit)) →
          isSuccessWith g B → 0 < B.length) →
        0 < (run acceptAll ⟨"https://example.com/c.json", Minute, [123, 125]⟩
          [.refresh (.rsp ⟨404, .ok [60, 62]⟩),
            .refresh (.rsp ⟨200, .ok [91, 93]⟩)]).1.File.length) ∧
      (∀ ticks : List GetResult,
        (0 < (startRefresh ⟨"https://example.com/c.json", Minute, [123, 125]⟩
            ticks).1.File.length ↔
          0 < (lastSuccessfulBody B0
            (ticks.map Event.refresh : List (Event Unit Unit))).length)) :=
  ⟨by decide, by decide,
    payload_nonempty_iff acceptAll "https://example.com/c.json"
      (.rsp ⟨200, .ok [123, 125]⟩) ⟨"https://example.com/c.json", Minute, [123, 125]⟩
      (by decide)
      [.refresh (.rsp ⟨404, .ok [60, 62]⟩), .refresh (.rsp ⟨200, .ok [91, 93]⟩)]
      (by decide)⟩

/-- C8, as stated, fails.  `New` succeeds on a response with status 200 and
a body that is the JSON object with the member URL, a string naming
http://other.example/, and the member Duration, the number 1.  A caller then
passes the handle to its own `Unmarshal`: the decoder stores the two members
in the fields of those names and returns nil, after which the URL of the
handle is no longer the one given to `New` and its refresh interval is one
nanosecond. -/
theorem URL_and_Duration_changed_by_Unmarshal_into_handle :
    New "https://example.com/c.json"
        (.rsp ⟨200, .ok [123, 34, 85, 82, 76, 34, 58, 34, 104, 116, 116, 112, 58, 47, 47,
          111, 116, 104, 101, 114, 46, 101, 120, 97, 109, 112, 108, 101, 47, 34, 44, 34,
          68, 117, 114, 97, 116, 105, 111, 110, 34, 58, 49, 125]⟩) =
      (some ⟨"https://example.com/c.json", Minute,
        [123, 34, 85, 82, 76, 34, 58, 34, 104, 116, 116, 112, 58, 47, 47,
          111, 116, 104, 101, 114, 46, 101, 120, 97, 109, 112, 108, 101, 47, 34, 44, 34,
          68, 117, 114, 97, 116, 105, 111, 110, 34, 58, 49, 125]⟩, none) ∧
    (∀ other, run (⟨fun _ v => (v, none), jsonUnmarshalHandle other⟩ : Decoder Unit Unit)
        ⟨"https://example.com/c.json", Minute,
          [123, 34, 85, 82, 76, 34, 58, 34, 104, 116, 116, 112, 58, 47, 47,
            111, 116, 104, 101, 114, 46, 101, 120, 97, 109, 112, 108, 101, 47, 34, 44, 34,
            68, 117, 114, 97, 116, 105, 111, 110, 34, 58, 49, 125]⟩
        [.unmarshal (.reaching ())] =
      (⟨"http://other.example/", 1,
        [123, 34, 85, 82, 76, 34, 58, 34, 104, 116, 116, 112, 58, 47, 47,
          111, 116, 104, 101, 114, 46, 101, 120, 97, 109, 112, 108, 101, 47, 34, 44, 34,
          68, 117, 114, 97, 116, 105, 111, 110, 34, 58, 49, 125]⟩,
        [.decoded (.reaching ()) none])) ∧
    ¬ (∀ (url : String) (get : GetResult) (rc : remoteConfig)
        (es : List (Event Unit Unit)),
        New url get = (some rc, none) →
        (run acceptAll rc es).1.URL = url ∧ (run acceptAll rc es).1.Duration = Minute) := by
  refine ⟨by decide, fun other => rfl, ?_⟩
  intro hall
  have h := hall "https://example.com/c.json"
    (.rsp ⟨200, .ok [123, 34, 85, 82, 76, 34, 58, 34, 104, 116, 116, 112, 58, 47, 47,
      111, 116, 104, 101, 114, 46, 101, 120, 97, 109, 112, 108, 101, 47, 34, 44, 34,
      68, 117, 114, 97, 116, 105, 111, 110, 34, 58, 49, 125]⟩)
    ⟨"https://example.com/c.json", Minute,
      [123, 34, 85, 82, 76, 34, 58, 34, 104, 116, 116, 112, 58, 47, 47,
        111, 116, 104, 101, 114, 46, 101, 120, 97, 109, 112, 108, 101, 47, 34, 44, 34,
        68, 117, 114, 97, 116, 105, 111, 110, 34, 58, 49, 125]⟩
    [.unmarshal (.reaching ())] (by decide)
  exact absurd h.2 (by decide)

/-- C8, amended: for a handle returned by `New url` and every later sequence
of refreshes (of either outcome) and `Unmarshal` calls in which no `Unmarshal`
target reaches the handle, the URL of the handle is `url` and its refresh
interval is `time.Minute`, that is 60 000 000 000 nanoseconds; each single
such event leaves both fields as they were. -/
theorem URL_and_Duration_fixed {V W : Type} (json : Decoder V W)
    (url : String) (get : GetResult) (rc : remoteConfig)
    (h : New url get = (some rc, none)) (es : List (Event V W))
    (hes : ∀ e ∈ es, e.reachesHandle = false) :
    (run json rc es).1.URL = url ∧
      (run json rc es).1.Duration = Minute ∧
      Minute = 60000000000 ∧
      (∀ e : Event V W, e.reachesHandle = false →
        (step json (run json rc es).1 e).1.URL = url ∧
        (step json (run json rc es).1 e).1.Duration = Minute) := by
  obtain ⟨B0, _, hrc⟩ := New_eq_some url get rc h
  refine ⟨by rw [run_fst json rc es hes, hrc], by rw [run_fst json rc es hes, hrc],
    by decide, ?_⟩
  intro e he
  constructor
  · rw [step_fst json _ e he, run_fst json rc es hes, hrc]
  · rw [step_fst json _ e he, run_fst json rc es hes, hrc]

theorem URL_and_Duration_fixed_witness :
    New "https://example.com/c.json" (.rsp ⟨200, .ok [123, 125]⟩) =
      (some ⟨"https://example.com/c.json", Minute, [123, 125]⟩, none) ∧
    (∀ e ∈ ([.refresh (.rsp ⟨200, .ok [91, 93]⟩), .unmarshal (.apart ()),
          .refresh (.err (.external "dial tcp: i/o timeout"))] : List (Event Unit Unit)),
        e.reachesHandle = false) ∧
    ((run rejectAll ⟨"https://example.com/c.json", Minute, [123, 125]⟩
        [.refresh (.rsp ⟨200, .ok [91, 93]⟩), .unmarshal (.apart ()),
          .refresh (.err (.external "dial tcp: i/o timeout"))]).1.URL =
        "https://example.com/c.json" ∧
      (run rejectAll ⟨"https://example.com/c.json", Minute, [123, 125]⟩
        [.refresh (.rsp ⟨200, .ok [91, 93]⟩), .unmarshal (.apart ()),
          .refresh (.err (.external "dial tcp: i/o timeout"))]).1.Duration = Minute ∧
      Minute = 60000000000 ∧
      (∀ e : Event Unit Unit, e.reachesHandle = false →
        (step rejectAll (run rejectAll ⟨"https://example.com/c.json", Minute, [123, 125]⟩
          [.refresh (.rsp ⟨200, .ok [91, 93]⟩), .unmarshal (.apart ()),
            .refresh (.err (.external "dial tcp: i/o timeout"))]).1 e).1.URL =
          "https://example.com/c.json" ∧
        (step rejectAll (run rejectAll ⟨"https://example.com/c.json", Minute, [123, 125]⟩
          [.refresh (.rsp ⟨200, .ok [91, 93]⟩), .unmarshal (.apart ()),
            .refresh (.err (.external "dial tcp: i/o timeout"))]).1 e).1.Duration =
          Minute)) :=
  ⟨by decide, by decide,
    URL_and_Duration_fixed rejectAll "https://example.com/c.json"
      (.rsp ⟨200, .ok [123, 125]⟩) ⟨"https://example.com/c.json", Minute, [123, 125]⟩
      (by decide)
      [.refresh (.rsp ⟨200, .ok [91, 93]⟩), .unmarshal (.apart ()),
        .refresh (.err (.external "dial tcp: i/o timeout"))] (by decide)⟩

end remoteconfig
